import Mathlib

/-!
Verification development for the sql-browser Query Execution Broker.

Shallow embedding of the broker core:
  * `src/backend/src/config/roles.js`    — role policy / statement authorization
  * `src/backend/src/config/database.js` — SQL Server pool registry
  * `src/services/SqlService.js`         — executeQuery / cancelQuery / pool acquisition
  * `src/models/QueryHistory.js`         — history ledger (create / update / purge)

JavaScript strings are Lean `String`s; `Map` objects are association lists;
`uuidv4` identifiers are modelled by a fresh counter; wall-clock instants are
`Nat` timestamps (ISO-8601 strings compare lexicographically in creation
order, so `<` on timestamps is faithful to the SQL comparison on the stored
strings); a thrown `Error` is the `Except.error` channel carrying the
message.  Driver behaviour (the resolution of `request.query`) is an input
parameter of the embedding.
-/

deriving instance DecidableEq for Except

namespace SqlBrowser

/-! ### String primitives (JS `startsWith`, `includes`, trim/upper-casing) -/

/-- Boolean prefix test on strings; model of JS `String.prototype.startsWith`. -/
def strStartsWith (s pre : String) : Bool :=
  pre.data.isPrefixOf s.data

/-- Helper for substring containment, scanning every suffix. -/
def subListOf (pat : List Char) : List Char → Bool
  | [] => pat.isEmpty
  | c :: rest => pat.isPrefixOf (c :: rest) || subListOf pat rest

/-- Substring containment; model of JS `String.prototype.includes`. -/
def strContainsSub (s pat : String) : Bool :=
  subListOf pat.data s.data

/-- Model of JS `sql.trim().toUpperCase()` (roles.js line 60) on the ASCII
statement texts at issue, computed directly on the character list. -/
def normalizeSql (s : String) : String :=
  String.mk (((s.data.dropWhile Char.isWhitespace).reverse.dropWhile
      Char.isWhitespace).reverse.map Char.toUpper)

/-- Character predicate: not whitespace; delimits the leading token. -/
def nonWs (c : Char) : Bool :=
  !c.isWhitespace

/-- The leading token of a statement: its characters up to the first
whitespace.  This is the spec's `classify` notion (spec §4.1), used to state
claim C6 as written; the code itself never computes it. -/
def leadingToken (s : String) : String :=
  String.mk (s.data.takeWhile nonWs)

/-! ### roles.js — role policy and statement authorization -/

/-- One entry of `ROLE_PERMISSIONS` (roles.js lines 9-46). -/
structure Permissions where
  allowedStatements : List String
  maxRows : Nat
  queryTimeoutMs : Nat
  canCancelQueries : Bool
  canViewHistory : Bool
  canManageUsers : Bool
  canManageConnections : Bool
deriving DecidableEq

/-- The `ROLE_PERMISSIONS` table (roles.js lines 9-46), as a map defined on
exactly the four role names. -/
def rolePermissionsTable : String → Option Permissions
  | "VIEWER" => some
    { allowedStatements := ["SELECT"], maxRows := 1000, queryTimeoutMs := 30000,
      canCancelQueries := true, canViewHistory := true,
      canManageUsers := false, canManageConnections := false }
  | "ANALYST" => some
    { allowedStatements := ["SELECT", "INSERT", "UPDATE"], maxRows := 5000,
      queryTimeoutMs := 60000, canCancelQueries := true, canViewHistory := true,
      canManageUsers := false, canManageConnections := false }
  | "DEVELOPER" => some
    { allowedStatements := ["SELECT", "INSERT", "UPDATE", "DELETE", "MERGE"],
      maxRows := 10000, queryTimeoutMs := 120000, canCancelQueries := true,
      canViewHistory := true, canManageUsers := false,
      canManageConnections := false }
  | "ADMIN" => some
    { allowedStatements := ["*"], maxRows := 50000, queryTimeoutMs := 300000,
      canCancelQueries := true, canViewHistory := true,
      canManageUsers := true, canManageConnections := true }
  | _ => none

/-- Model of `getRolePermissions` (roles.js lines 48-50): unknown roles fall back to
the VIEWER policy. -/
def getRolePermissions (role : String) : Permissions :=
  match rolePermissionsTable role with
  | some p => p
  | none =>
    { allowedStatements := ["SELECT"], maxRows := 1000, queryTimeoutMs := 30000,
      canCancelQueries := true, canViewHistory := true,
      canManageUsers := false, canManageConnections := false }

/-- The `ddlKeywords` list of roles.js lines 69-72, in source order. -/
def ddlKeywords : List String :=
  ["CREATE", "ALTER", "DROP", "TRUNCATE", "GRANT", "REVOKE", "EXECUTE", "EXEC"]

/-- Result shape of `canExecuteStatement`: `{allowed:true}`,
`{allowed:true, statement}`, or `{allowed:false, reason}`. -/
inductive PermCheck where
  | allowAll : PermCheck
  | allowStmt (statement : String) : PermCheck
  | deny (reason : String) : PermCheck
deriving DecidableEq

/-- The denial text of roles.js lines 76-79, naming a DDL keyword. -/
def ddlReason (role kw : String) : String :=
  "Role " ++ role ++ " is not permitted to execute " ++ kw ++ " statements"

/-- The generic denial text of roles.js lines 83-86. -/
def genericReason (role : String) : String :=
  "Role " ++ role ++ " is not permitted to execute this type of query"

/-- Model of `canExecuteStatement` (roles.js lines 52-87): `'*'` grants everything;
otherwise the first allowed statement keyword that is a prefix of the
trimmed, upper-cased text allows, else the first matching DDL keyword names
the denial, else the denial is generic. -/
def canExecuteStatement (role sqlText : String) : PermCheck :=
  let permissions := getRolePermissions role
  if permissions.allowedStatements.contains "*" then .allowAll
  else
    let normalizedSql := normalizeSql sqlText
    match permissions.allowedStatements.find? (fun st => strStartsWith normalizedSql st) with
    | some st => .allowStmt st
    | none =>
      match ddlKeywords.find? (fun kw => strStartsWith normalizedSql kw) with
      | some kw => .deny (ddlReason role kw)
      | none => .deny (genericReason role)

/-- Boolean view of a `PermCheck`, the `allowed` flag of the JS object. -/
def PermCheck.allowedFlag : PermCheck → Bool
  | .deny _ => false
  | _ => true

/-! ### Association-list maps, the embedding of JS `Map` objects -/

/-- Lookup in an association list; model of `Map.prototype.get`
(`undefined` becomes `none`). -/
def lookupA {α : Type} (k : String) : List (String × α) → Option α
  | [] => none
  | (k', v) :: rest => if k' = k then some v else lookupA k rest

/-- Insert-or-replace; model of `Map.prototype.set`. -/
def insertA {α : Type} (k : String) (v : α) : List (String × α) → List (String × α)
  | [] => [(k, v)]
  | (k', v') :: rest => if k' = k then (k, v) :: rest else (k', v') :: insertA k v rest

/-- Removal of the entry for a key; model of `Map.prototype.delete` (a JS
`Map` holds at most one entry per key, so removal leaves no entry). -/
def eraseA {α : Type} (k : String) : List (String × α) → List (String × α)
  | [] => []
  | (k', v') :: rest => if k' = k then eraseA k rest else (k', v') :: eraseA k rest

/-! ### database.js — SQL Server pool registry -/

/-- The fields of a `connectionConfig` object that `poolKey` reads.  In
`_getOrCreatePool` the lookup passes `{ server: connectionId }`, whose
`database` property is `undefined`; `none` models that. -/
structure PoolCfg where
  server : String
  database : Option String
deriving DecidableEq

/-- The template literal `` `${server}_${database}` `` of database.js
lines 32/43/48; JS renders an `undefined` property as the text
`"undefined"`. -/
def poolKey (c : PoolCfg) : String :=
  c.server ++ "_" ++ (match c.database with | some d => d | none => "undefined")

/-- A live `sql.ConnectionPool` object, identified by the order of its
creation; `connected` is the driver's `pool.connected` flag. -/
structure SqlPoolObj where
  pid : Nat
  connected : Bool
deriving DecidableEq

/-- State owned by database.js and the pool-creation counter: the `sqlPools`
map (database.js line 29) plus the identity of the next pool object
`new sql.ConnectionPool(...)` would mint. -/
structure PoolSt where
  reg : List (String × SqlPoolObj)
  nextPid : Nat
deriving DecidableEq

/-- Model of `getSqlPool` (database.js lines 31-40): look the key up, `null` when
absent. -/
def getSqlPool (reg : List (String × SqlPoolObj)) (c : PoolCfg) : Option SqlPoolObj :=
  lookupA (poolKey c) reg

/-- Model of `setSqlPool` (database.js lines 42-45). -/
def setSqlPool (reg : List (String × SqlPoolObj)) (c : PoolCfg) (p : SqlPoolObj) :
    List (String × SqlPoolObj) :=
  insertA (poolKey c) p reg

/-- The decrypted connection descriptors, the result of
`ConnectionModel.getDecryptedConfig(connectionId)` per connection id
(an external read; only `server` and `database` feed the pool key). -/
structure BrokerEnv where
  cfgServer : String → String
  cfgDatabase : String → String

/-- The pool-construction-and-registration tail of `_getOrCreatePool`
(SqlService.js lines 162-192): decrypt the descriptor, mint a pool, connect
(successfully, in this embedding), register it under the key of the full
config, return it. -/
def createAndRegisterPool (env : BrokerEnv) (st : PoolSt) (connectionId : String) :
    SqlPoolObj × PoolSt :=
  let config : PoolCfg :=
    { server := env.cfgServer connectionId,
      database := some (env.cfgDatabase connectionId) }
  let pool : SqlPoolObj := { pid := st.nextPid, connected := true }
  (pool, { reg := setSqlPool st.reg config pool, nextPid := st.nextPid + 1 })

/-- Model of `SqlService._getOrCreatePool` (SqlService.js lines 154-193): probe the
registry with `{ server: connectionId }`, return the hit if it is connected,
otherwise create and register a fresh pool. -/
def getOrCreatePool (env : BrokerEnv) (st : PoolSt) (connectionId : String) :
    SqlPoolObj × PoolSt :=
  match getSqlPool st.reg { server := connectionId, database := none } with
  | some existingPool =>
    if existingPool.connected then (existingPool, st)
    else createAndRegisterPool env st connectionId
  | none => createAndRegisterPool env st connectionId

/-! ### QueryHistory.js — history ledger -/

/-- A dynamically-typed SQLite cell value. -/
inductive JVal where
  | s (v : String)
  | n (v : Int)
  | null
deriving DecidableEq

/-- One row of the `query_history` table.  The five identity columns carry
their native types; the five mutable columns are dynamic cells.  `createdAt`
is the creation instant as a timestamp (the stored ISO-8601 string orders
lexicographically exactly as this number orders). -/
structure HistRow where
  id : String
  userId : String
  connectionId : String
  sqlText : String
  createdAt : Nat
  status : JVal
  rowCount : JVal
  executionTimeMs : JVal
  errorMessage : JVal
  cancelledAt : JVal
deriving DecidableEq

namespace QueryHistoryModel

/-- The `allowedFields` list of QueryHistory.js line 52. -/
def allowedFields : List String :=
  ["status", "rowCount", "executionTimeMs", "errorMessage", "cancelledAt"]

/-- Model of `_toSnakeCase` (QueryHistory.js lines 247-249): each upper-case letter
becomes an underscore followed by its lower-case form. -/
def toSnakeCase (s : String) : String :=
  String.mk (s.data.foldr
    (fun c acc => if c.isUpper then '_' :: c.toLower :: acc else c :: acc) [])

/-- Application of one `SET column = ?` clause to a row.  Only the snake-case
forms of the five allow-listed fields ever reach the generated SQL. -/
def applyClause (r : HistRow) (col : String) (v : JVal) : HistRow :=
  if col = "status" then { r with status := v }
  else if col = "row_count" then { r with rowCount := v }
  else if col = "execution_time_ms" then { r with executionTimeMs := v }
  else if col = "error_message" then { r with errorMessage := v }
  else if col = "cancelled_at" then { r with cancelledAt := v }
  else r

/-- Application of a generated `SET` list to a row, in generation order. -/
def applySets (r : HistRow) (sets : List (String × JVal)) : HistRow :=
  sets.foldl (fun acc kv => applyClause acc (toSnakeCase kv.fst) kv.snd) r

/-- Model of `findById` (QueryHistory.js lines 86-104): first row with the id. -/
def findById (hist : List HistRow) (id : String) : Option HistRow :=
  hist.find? (fun r => r.id = id)

/-- Model of `QueryHistoryModel.update` (QueryHistory.js lines 49-81): keep the
updates whose keys are allow-listed; with none, read back without writing;
otherwise run `UPDATE query_history SET ... WHERE id = ?` and read back. -/
def update (hist : List HistRow) (id : String) (updates : List (String × JVal)) :
    Option HistRow × List HistRow :=
  let sets := updates.filter (fun kv => allowedFields.contains kv.fst)
  if sets = [] then (findById hist id, hist)
  else
    let hist' := hist.map (fun r => if r.id = id then applySets r sets else r)
    (findById hist' id, hist')

/-- Model of `QueryHistoryModel.create` (QueryHistory.js lines 9-44) as invoked by
`executeQuery`: a fresh row with status `'running'` and null metrics,
appended to the table. -/
def create (hist : List HistRow) (id userId connectionId sqlText : String)
    (now : Nat) : HistRow × List HistRow :=
  let row : HistRow :=
    { id := id, userId := userId, connectionId := connectionId,
      sqlText := sqlText, createdAt := now, status := .s "running",
      rowCount := .null, executionTimeMs := .null, errorMessage := .null,
      cancelledAt := .null }
  (row, hist ++ [row])

/-- Model of `deleteOlderThan` (QueryHistory.js lines 207-224): runs
`DELETE FROM query_history WHERE created_at < cutoff` and reports the number
of rows removed.  The cutoff instant is `now - days` rendered as an
ISO string; it is passed here already computed. -/
def deleteOlderThan (hist : List HistRow) (cutoff : Nat) : List HistRow × Nat :=
  let kept := hist.filter (fun r => !decide (r.createdAt < cutoff))
  (kept, hist.length - kept.length)

end QueryHistoryModel

/-! ### SqlService.js — the Query Execution Broker -/

/-- One value of the `runningQueries` map (SqlService.js line 9): the owning
user and target connection of a tracked execution.  The live `request`
handle itself is identified by the execution id; `BrokerState.signalled`
records the ids whose handle received `request.cancel()`. -/
structure TrackEntry where
  userId : String
  connectionId : String
deriving DecidableEq

/-- The broker's mutable state: the `query_history` table, the
`runningQueries` map, the pool registry with its creation counter, the
fresh-id counter standing in for `uuidv4`, and the set of executions whose
driver request has been sent a cancel signal. -/
structure BrokerState where
  hist : List HistRow
  running : List (String × TrackEntry)
  pools : PoolSt
  nextQid : Nat
  signalled : List String
deriving DecidableEq

/-- The broker state with empty tables and registries. -/
def BrokerState.empty : BrokerState :=
  { hist := [], running := [], pools := { reg := [], nextPid := 0 },
    nextQid := 0, signalled := [] }

/-- The resolution of `request.query(sqlQuery)`: either a driver result —
whose `recordset` property may be absent, e.g. for a data-modification
statement — or a rejection carrying an error message.  Rows are abstract. -/
inductive QueryOutcome where
  | ok (recordset : Option (List Nat))
  | err (message : String)

/-- The success value returned by `executeQuery` (SqlService.js lines
71-80); the `columns` metadata carries no content in this embedding. -/
structure ExecOk where
  queryId : String
  data : List Nat
  totalRows : Nat
  returnedRows : Nat
  truncated : Bool
  maxRows : Nat
  executionTimeMs : Nat
deriving DecidableEq

/-- The fresh execution id minted for counter value `n`. -/
def mkQid (n : Nat) : String :=
  "q" ++ toString n

/-- Model of `SqlService.executeQuery` (SqlService.js lines 15-113), sequentially:
authorize; create the `running` history row; acquire a pool; register the
tracker entry; then dispatch on the driver outcome.  The catch block
(lines 82-112) classifies a rejection as a cancellation exactly when its
message contains `'cancel'`; a denial thrown at line 24 also flows through
that catch with `queryHistoryId` still null, so it updates nothing.
`now` is the submission instant, `elapsedMs` the measured execution time. -/
def executeQuery (env : BrokerEnv) (st : BrokerState)
    (userRole userId connectionId sqlText : String)
    (outcome : QueryOutcome) (now elapsedMs : Nat) :
    Except String ExecOk × BrokerState :=
  match canExecuteStatement userRole sqlText with
  | .deny reason =>
    if strContainsSub reason "cancel" then (.error "Query cancelled by user", st)
    else (.error reason, st)
  | _ =>
    let permissions := getRolePermissions userRole
    let qid := mkQid st.nextQid
    let hist1 := (QueryHistoryModel.create st.hist qid userId connectionId sqlText now).snd
    let pools1 := (getOrCreatePool env st.pools connectionId).snd
    let running1 := insertA qid { userId := userId, connectionId := connectionId } st.running
    let st1 : BrokerState :=
      { hist := hist1, running := running1, pools := pools1,
        nextQid := st.nextQid + 1, signalled := st.signalled }
    match outcome with
    | .ok maybeRecordset =>
      let recordset := maybeRecordset.getD []
      let totalRows := recordset.length
      let limitedRows := recordset.take permissions.maxRows
      let hist2 := (QueryHistoryModel.update st1.hist qid
        [("status", .s "success"), ("rowCount", .n totalRows),
         ("executionTimeMs", .n elapsedMs)]).snd
      (.ok { queryId := qid, data := limitedRows, totalRows := totalRows,
             returnedRows := limitedRows.length,
             truncated := decide (totalRows > permissions.maxRows),
             maxRows := permissions.maxRows, executionTimeMs := elapsedMs },
       { st1 with hist := hist2, running := eraseA qid st1.running })
    | .err msg =>
      if strContainsSub msg "cancel" then
        let hist2 := (QueryHistoryModel.update st1.hist qid
          [("status", .s "cancelled"), ("executionTimeMs", .n elapsedMs),
           ("errorMessage", .s "Query cancelled by user")]).snd
        (.error "Query cancelled by user",
         { st1 with hist := hist2, running := eraseA qid st1.running })
      else
        let hist2 := (QueryHistoryModel.update st1.hist qid
          [("status", .s "error"), ("executionTimeMs", .n elapsedMs),
           ("errorMessage", .s msg)]).snd
        (.error msg,
         { st1 with hist := hist2, running := eraseA qid st1.running })

/-- The message thrown for a cancel of an untracked id (SqlService.js
line 122). -/
def notFoundMsg : String := "Query not found or already completed"

/-- The message thrown for a cancel by a non-owner (SqlService.js
line 127). -/
def denyMsg : String := "Unauthorized to cancel this query"

/-- Model of `SqlService.cancelQuery` (SqlService.js lines 118-149), sequentially:
throw when the id is untracked; throw when the requester is not the owner;
otherwise signal `request.cancel()`, finalize the history row as
`cancelled` with the cancellation instant, drop the tracker entry, and
return the success acknowledgement. -/
def cancelQuery (st : BrokerState) (queryId userId : String) (cancelNow : Nat) :
    Except String Unit × BrokerState :=
  match lookupA queryId st.running with
  | none => (.error notFoundMsg, st)
  | some runningQuery =>
    if runningQuery.userId ≠ userId then (.error denyMsg, st)
    else
      let hist' := (QueryHistoryModel.update st.hist queryId
        [("status", .s "cancelled"), ("cancelledAt", .n cancelNow)]).snd
      (.ok (),
       { st with
         hist := hist',
         running := eraseA queryId st.running,
         signalled := queryId :: st.signalled })

/-! ### The completion/cancellation race (claim C1)

Here `executeQuery` and `cancelQuery` run as interleaved async tasks sharing the
history row and the `runningQueries` entry of one execution.  Each path is a
list of atomic actions separated by the `await` points of the source; a
schedule (a list of Booleans, `true` picking the completion task) decides
the interleaving.  The cancelling user owns the execution, so the ownership
test of line 126 passes whenever the lookup succeeds. -/

/-- Execution status of a history row, restricted to the race model. -/
inductive HStatus where
  | running | success | error | cancelled
deriving DecidableEq

/-- A terminal status (spec glossary). -/
def HStatus.isTerminal : HStatus → Bool
  | .running => false
  | _ => true

/-- The atomic actions of the two finishing paths. -/
inductive RaceAct where
  | writeStatus (s : HStatus)
  | dropHandle
  | lookupHandle
  | cancelHandle
deriving DecidableEq

/-- The state shared by the two racing tasks, with each task's remaining
actions. -/
structure RaceState where
  status : HStatus
  tracked : Bool
  cancelSignalled : Bool
  completion : List RaceAct
  canceller : List RaceAct
deriving DecidableEq

/-- Natural completion after the driver resolves (SqlService.js lines
60-67): finalize as `success`, then drop the tracker entry. -/
def completionProg : List RaceAct :=
  [.writeStatus .success, .dropHandle]

/-- Model of `cancelQuery` (SqlService.js lines 118-140): look the handle up, signal
the driver, finalize as `cancelled`, drop the tracker entry. -/
def cancellerProg : List RaceAct :=
  [.lookupHandle, .cancelHandle, .writeStatus .cancelled, .dropHandle]

/-- Effect of one atomic action on the shared state.  `writeStatus` is the
unconditional `UPDATE` issued by `QueryHistoryModel.update`: no path reads
the stored status before writing. -/
def runAct (st : RaceState) (a : RaceAct) : RaceState :=
  match a with
  | .writeStatus s => { st with status := s }
  | .dropHandle => { st with tracked := false }
  | .cancelHandle => { st with cancelSignalled := true }
  | .lookupHandle => st

/-- One scheduler step: `true` runs the next completion action, `false` the
next canceller action.  A canceller whose lookup finds the entry already
deleted throws (line 122) and performs nothing further. -/
def stepRace (st : RaceState) (choice : Bool) : RaceState :=
  if choice then
    match st.completion with
    | [] => st
    | a :: rest => { runAct st a with completion := rest }
  else
    match st.canceller with
    | [] => st
    | .lookupHandle :: rest =>
      if st.tracked then { st with canceller := rest }
      else { st with canceller := [] }
    | a :: rest => { runAct st a with canceller := rest }

/-- The race's initial state: the record is `running` and tracked, both
paths are pending. -/
def raceInit : RaceState :=
  { status := .running, tracked := true, cancelSignalled := false,
    completion := completionProg, canceller := cancellerProg }

/-- The shared state after running a schedule from `raceInit`. -/
def runRace (sched : List Bool) : RaceState :=
  sched.foldl stepRace raceInit

/-! ## Helper lemmas -/

/-- The identity columns of a history row, bundled. -/
def idFields (r : HistRow) : String × String × String × String × Nat :=
  (r.id, r.userId, r.connectionId, r.sqlText, r.createdAt)

namespace QueryHistoryModel

lemma idFields_applyClause (r : HistRow) (col : String) (v : JVal) :
    idFields (applyClause r col v) = idFields r := by
  unfold applyClause
  repeat' split
  all_goals rfl

lemma idFields_applySets (r : HistRow) (sets : List (String × JVal)) :
    idFields (applySets r sets) = idFields r := by
  induction sets generalizing r with
  | nil => rfl
  | cons kv rest ih =>
    show idFields (applySets (applyClause r (toSnakeCase kv.fst) kv.snd) rest) = idFields r
    rw [ih, idFields_applyClause]

lemma id_applySets (r : HistRow) (sets : List (String × JVal)) :
    (applySets r sets).id = r.id :=
  congrArg (fun q => q.fst) (idFields_applySets r sets)

end QueryHistoryModel

lemma lookupA_eraseA {α : Type} (k : String) (l : List (String × α)) :
    lookupA k (eraseA k l) = none := by
  induction l with
  | nil => rfl
  | cons kv rest ih =>
    show lookupA k (if kv.fst = k then _ else _) = none
    split
    · exact ih
    · show lookupA k (kv :: eraseA k rest) = none
      have : ¬ kv.fst = k := by assumption
      simp [lookupA, this, ih]

/-! ## Claim C2 — pool reuse per connection id (code bug)

`_getOrCreatePool` probes the registry with `{ server: connectionId }`,
whose pool key renders as `"<connectionId>_undefined"`, but `setSqlPool`
registers the created pool under `"<server>_<database>"` of the decrypted
config.  The two keys differ for every real connection descriptor, so the
probe never finds the pool registered by an earlier acquire, and every
acquire constructs and registers a fresh pool — contrary to the spec's
single-pool-per-key invariant and to the function's own purpose ("Check if
pool already exists"). -/

/-- Decrypted descriptors used to exercise the pool registry: every
connection id decrypts to server `dbhost`, database `sales`. -/
def envC2 : BrokerEnv :=
  { cfgServer := fun _ => "dbhost", cfgDatabase := fun _ => "sales" }

/-- The first acquire for connection id `conn-1`, from an empty registry. -/
def firstAcquire : SqlPoolObj × PoolSt :=
  getOrCreatePool envC2 { reg := [], nextPid := 0 } "conn-1"

/-- A second acquire for the same connection id, in the state the first
left. -/
def secondAcquire : SqlPoolObj × PoolSt :=
  getOrCreatePool envC2 firstAcquire.snd "conn-1"

/-- C2: the first acquire registers pool 0, live and connected, under the
key of the decrypted config — yet the second acquire for the same
connection id returns a different, freshly created pool object (pid 1) and
registers it, because its probe uses the key
`"conn-1_undefined"` while the registration used `"dbhost_sales"`.  The
claimed invariant — a later acquire returns the already-registered pool and
registers no new pool — fails on every acquire after the first. -/
theorem C2_pool_key_mismatch :
    firstAcquire.fst.pid = 0
    ∧ getSqlPool firstAcquire.snd.reg { server := "dbhost", database := some "sales" }
        = some { pid := 0, connected := true }
    ∧ getSqlPool firstAcquire.snd.reg { server := "conn-1", database := none } = none
    ∧ secondAcquire.fst.pid = 1
    ∧ secondAcquire.fst ≠ firstAcquire.fst
    ∧ secondAcquire.snd.nextPid = 2 := by
  decide

/-! ## Claim C7 — retention purge (corrected)

`deleteOlderThan` runs `DELETE FROM query_history WHERE created_at < ?`
with no condition on `status`: it deletes every record older than the
cutoff, including records still in status `running`. -/

/-- A history record still in status `running`, created at instant 0. -/
def oldRunningRow : HistRow :=
  { id := "h1", userId := "u", connectionId := "c", sqlText := "SELECT 1",
    createdAt := 0, status := .s "running", rowCount := .null,
    executionTimeMs := .null, errorMessage := .null, cancelledAt := .null }

/-- C7 counterexample: with a cutoff of 100, the purge deletes the
non-terminal record `oldRunningRow` (status `running`, created at 0),
though the claim says records still in status `running` are left
unchanged. -/
theorem C7_counterexample :
    oldRunningRow.status = .s "running"
    ∧ oldRunningRow.createdAt < 100
    ∧ (QueryHistoryModel.deleteOlderThan [oldRunningRow] 100).fst = [] := by
  decide

/-- C7 amended: `deleteOlderThan` deletes exactly the records older than
the cutoff, regardless of status; a record survives the purge exactly when
it was in the table and its creation instant is at or after the cutoff. -/
theorem C7_purge_amended (hist : List HistRow) (cutoff : Nat) (r : HistRow) :
    r ∈ (QueryHistoryModel.deleteOlderThan hist cutoff).fst
      ↔ r ∈ hist ∧ cutoff ≤ r.createdAt := by
  simp [QueryHistoryModel.deleteOlderThan, List.mem_filter, Nat.not_lt]

/-- C7 witness: the amended theorem applied to a one-record table whose
record is newer than the cutoff. -/
theorem C7_purge_amended_witness :
    oldRunningRow ∈ (QueryHistoryModel.deleteOlderThan [oldRunningRow] 0).fst
      ↔ oldRunningRow ∈ [oldRunningRow] ∧ 0 ≤ oldRunningRow.createdAt :=
  C7_purge_amended [oldRunningRow] 0 oldRunningRow

/-! ## Claim C9 — update frame property (confirmed) -/

/-- The filter keeping the allow-listed updates, as generated by
`QueryHistoryModel.update`. -/
def updSets (upds : List (String × JVal)) : List (String × JVal) :=
  upds.filter (fun kv => QueryHistoryModel.allowedFields.contains kv.fst)

lemma updSets_idem (upds : List (String × JVal)) :
    updSets (updSets upds) = updSets upds := by
  unfold updSets
  induction upds with
  | nil => rfl
  | cons kv rest ih =>
    rw [List.filter_cons]
    by_cases h : QueryHistoryModel.allowedFields.contains kv.fst = true
    · rw [if_pos h, List.filter_cons, if_pos h, ih]
    · rw [if_neg h, ih]

/-- The branches of `QueryHistoryModel.update`, with its generated `SET`
list spelled through `updSets`. -/
lemma update_eq (hist : List HistRow) (id : String) (upds : List (String × JVal)) :
    QueryHistoryModel.update hist id upds =
      if updSets upds = [] then (QueryHistoryModel.findById hist id, hist)
      else
        (QueryHistoryModel.findById
            (hist.map (fun r =>
              if r.id = id then QueryHistoryModel.applySets r (updSets upds) else r)) id,
         hist.map (fun r =>
           if r.id = id then QueryHistoryModel.applySets r (updSets upds) else r)) :=
  rfl

/-- C9: every `QueryHistoryModel.update` leaves the identity columns (id,
user id, connection id, statement text, creation instant) of every row of
the table unchanged; keys outside the allowlist are ignored — the update
behaves exactly as the update restricted to allow-listed keys; and an
update with no allow-listed key writes nothing, returning the stored record
as-is. -/
theorem C9_update_frame (hist : List HistRow) (id : String)
    (upds : List (String × JVal)) :
    (QueryHistoryModel.update hist id upds).snd.map idFields = hist.map idFields
    ∧ QueryHistoryModel.update hist id upds
        = QueryHistoryModel.update hist id (updSets upds)
    ∧ (updSets upds = [] →
        QueryHistoryModel.update hist id upds
          = (QueryHistoryModel.findById hist id, hist)) := by
  refine ⟨?_, ?_, ?_⟩
  · rw [update_eq]
    split
    · rfl
    · simp only [List.map_map]
      apply List.map_congr_left
      intro r _
      show idFields (if r.id = id then _ else r) = idFields r
      split
      · exact QueryHistoryModel.idFields_applySets r _
      · rfl
  · rw [update_eq, update_eq, updSets_idem]
  · intro h
    rw [update_eq, if_pos h]

/-- C9 witness: a concrete update carrying one allow-listed key, one
foreign key, and one identity-column name (which is not allow-listed)
applied to a one-row table. -/
theorem C9_update_frame_witness :
    (QueryHistoryModel.update [oldRunningRow] "h1"
        [("status", .s "success"), ("foo", .n 3), ("userId", .s "intruder")]).snd.map idFields
      = [oldRunningRow].map idFields
    ∧ QueryHistoryModel.update [oldRunningRow] "h1"
        [("status", .s "success"), ("foo", .n 3), ("userId", .s "intruder")]
      = QueryHistoryModel.update [oldRunningRow] "h1"
          (updSets [("status", .s "success"), ("foo", .n 3), ("userId", .s "intruder")])
    ∧ (updSets [("status", .s "success"), ("foo", .n 3), ("userId", .s "intruder")] = [] →
        QueryHistoryModel.update [oldRunningRow] "h1"
            [("status", .s "success"), ("foo", .n 3), ("userId", .s "intruder")]
          = (QueryHistoryModel.findById [oldRunningRow] "h1", [oldRunningRow])) :=
  C9_update_frame [oldRunningRow] "h1"
    [("status", .s "success"), ("foo", .n 3), ("userId", .s "intruder")]

/-! ## Claim C5 — cancel contract (corrected)

The deny/notFound classification of `cancelQuery` is exactly as claimed,
and a second cancel after an acknowledged one results in notFound.  The
claim's remaining clause — that the notFound outcome "is not an error
condition for the caller" — fails on the code: line 122 throws
`Error('Query not found or already completed')`, so notFound travels on the
same thrown-error channel as every failure (and the HTTP layer converts it
into a generic 500 response). -/

/-- C5 counterexample: a cancel for an untracked id is delivered to the
caller as a thrown error — the `Except.error` channel, the same channel as
the ownership denial — not as a non-error acknowledgement, contradicting
the claim's "notFound ... is not an error condition for the caller". -/
theorem C5_counterexample :
    cancelQuery BrokerState.empty "q1" "u1" 0
      = (.error notFoundMsg, BrokerState.empty)
    ∧ (∀ ok : Unit, (Except.error notFoundMsg : Except String Unit) ≠ .ok ok) := by
  constructor
  · rfl
  · intro ok
    simp

/-- C5 amended: `cancelQuery` results in deny exactly when a handle is
tracked whose owner differs from the requester, and in notFound exactly
when no handle is tracked — but both are surfaced as thrown errors.  On an
acknowledged cancel the underlying cancel primitive is invoked on the
handle, the tracker entry is removed, and a second cancel for the same id
results in notFound. -/
theorem C5_cancel_contract (st : BrokerState) (qid uid : String) (cn : Nat) :
    (lookupA qid st.running = none →
      cancelQuery st qid uid cn = (.error notFoundMsg, st))
    ∧ (∀ e, lookupA qid st.running = some e → e.userId ≠ uid →
        cancelQuery st qid uid cn = (.error denyMsg, st))
    ∧ (∀ e, lookupA qid st.running = some e → e.userId = uid →
        (cancelQuery st qid uid cn).fst = .ok ()
        ∧ qid ∈ (cancelQuery st qid uid cn).snd.signalled
        ∧ lookupA qid (cancelQuery st qid uid cn).snd.running = none
        ∧ (cancelQuery (cancelQuery st qid uid cn).snd qid uid cn).fst
            = .error notFoundMsg) := by
  refine ⟨?_, ?_, ?_⟩
  · intro h
    unfold cancelQuery
    rw [h]
  · intro e h hne
    unfold cancelQuery
    rw [h]
    simp [hne]
  · intro e h heq
    have hres : cancelQuery st qid uid cn =
        (.ok (),
         { st with
           hist := (QueryHistoryModel.update st.hist qid
             [("status", .s "cancelled"), ("cancelledAt", .n cn)]).snd,
           running := eraseA qid st.running,
           signalled := qid :: st.signalled }) := by
      unfold cancelQuery
      rw [h]
      simp [heq]
    refine ⟨by rw [hres], by rw [hres]; exact List.mem_cons_self _ _, ?_, ?_⟩
    · rw [hres]
      exact lookupA_eraseA qid st.running
    · rw [hres]
      show (cancelQuery _ qid uid cn).fst = _
      unfold cancelQuery
      rw [show lookupA qid (eraseA qid st.running) = none from
        lookupA_eraseA qid st.running]

/-- C5 witness: the amended contract at a one-entry tracker owned by `u1`. -/
theorem C5_cancel_contract_witness :
    (lookupA "q0"
        [("q0", ({ userId := "u1", connectionId := "c" } : TrackEntry))] = none →
      cancelQuery
          { BrokerState.empty with
            running := [("q0", { userId := "u1", connectionId := "c" })] }
          "q0" "u1" 9
        = (.error notFoundMsg,
           { BrokerState.empty with
             running := [("q0", { userId := "u1", connectionId := "c" })] }))
    ∧ (∀ e, lookupA "q0"
          [("q0", ({ userId := "u1", connectionId := "c" } : TrackEntry))] = some e →
        e.userId ≠ "u1" →
        cancelQuery
            { BrokerState.empty with
              running := [("q0", { userId := "u1", connectionId := "c" })] }
            "q0" "u1" 9
          = (.error denyMsg,
             { BrokerState.empty with
               running := [("q0", { userId := "u1", connectionId := "c" })] }))
    ∧ (∀ e, lookupA "q0"
          [("q0", ({ userId := "u1", connectionId := "c" } : TrackEntry))] = some e →
        e.userId = "u1" →
        (cancelQuery
            { BrokerState.empty with
              running := [("q0", { userId := "u1", connectionId := "c" })] }
            "q0" "u1" 9).fst = .ok ()
        ∧ "q0" ∈ (cancelQuery
            { BrokerState.empty with
              running := [("q0", { userId := "u1", connectionId := "c" })] }
            "q0" "u1" 9).snd.signalled
        ∧ lookupA "q0" (cancelQuery
            { BrokerState.empty with
              running := [("q0", { userId := "u1", connectionId := "c" })] }
            "q0" "u1" 9).snd.running = none
        ∧ (cancelQuery (cancelQuery
            { BrokerState.empty with
              running := [("q0", { userId := "u1", connectionId := "c" })] }
            "q0" "u1" 9).snd "q0" "u1" 9).fst = .error notFoundMsg) := by
  have hrun : ({ BrokerState.empty with
      running := [("q0", { userId := "u1", connectionId := "c" })] } :
        BrokerState).running
      = [("q0", ({ userId := "u1", connectionId := "c" } : TrackEntry))] := rfl
  exact hrun ▸ C5_cancel_contract
    { BrokerState.empty with
      running := [("q0", { userId := "u1", connectionId := "c" })] } "q0" "u1" 9

/-! ## Claim C1 — terminal status under the completion/cancellation race
(corrected)

Neither finishing path reads the stored status before finalizing:
`QueryHistoryModel.update` writes whatever status it is handed, and
`cancelQuery`'s guard is the tracker entry, which the completion path
deletes only after its own finalize has committed.  In the window between
the success write (line 60) and the tracker delete (line 67), `cancelQuery`
still finds the handle, and its later finalize overwrites the terminal
`success` with `cancelled`. -/

/-- A schedule realizing the overwrite: the canceller looks the handle up,
then the completion path finalizes `success` and deregisters, then the
canceller finishes — signalling the driver, finalizing `cancelled`,
deregistering again. -/
def overwriteSched : List Bool :=
  [false, true, true, false, false, false]

/-- C1 counterexample: the claim — after a terminal status is written, no
later step of any path writes a different status — is false: under
`overwriteSched` the record is terminal (`success`) after two steps, and
three steps later its status is different (`cancelled`). -/
theorem C1_counterexample :
    ¬ (∀ (sched : List Bool) (i j : Nat), i ≤ j →
        (runRace (sched.take i)).status.isTerminal = true →
        (runRace (sched.take j)).status = (runRace (sched.take i)).status) := by
  intro h
  exact absurd (h overwriteSched 2 5 (by decide) (by decide)) (by decide)

/-- States reachable in the race: each path's residual program is a suffix
of its source path; once the completion path has issued its write, the
status is terminal; and the status is never `error` in this race. -/
def RaceInv (st : RaceState) : Prop :=
  (st.completion = completionProg ∨ st.completion = [.dropHandle]
    ∨ st.completion = [])
  ∧ (st.canceller = cancellerProg
    ∨ st.canceller = [.cancelHandle, .writeStatus .cancelled, .dropHandle]
    ∨ st.canceller = [.writeStatus .cancelled, .dropHandle]
    ∨ st.canceller = [.dropHandle]
    ∨ st.canceller = [])
  ∧ (st.completion = completionProg ∨ st.status = .success
    ∨ st.status = .cancelled)
  ∧ (st.status = .running ∨ st.status = .success ∨ st.status = .cancelled)

lemma raceInv_init : RaceInv raceInit := by
  unfold RaceInv
  decide

lemma raceInv_step (st : RaceState) (c : Bool) (h : RaceInv st) :
    RaceInv (stepRace st c) := by
  obtain ⟨h1, h2, h3, h4⟩ := h
  cases c
  · rcases h2 with h2 | h2 | h2 | h2 | h2 <;>
      simp only [stepRace, h2, cancellerProg, runAct, Bool.false_eq_true,
        if_false] <;>
      [skip; skip; skip; skip; exact ⟨h1, by simp [h2], h3, h4⟩]
    · by_cases ht : st.tracked = true <;>
        simp only [ht, if_true, Bool.false_eq_true, if_false] <;>
        exact ⟨h1, by simp, h3, h4⟩
    · exact ⟨h1, by simp, h3, h4⟩
    · refine ⟨h1, by simp, Or.inr (Or.inr rfl), Or.inr (Or.inr rfl)⟩
    · exact ⟨h1, by simp, h3, h4⟩
  · rcases h1 with h1 | h1 | h1 <;>
      simp only [stepRace, h1, completionProg, runAct, if_true]
    · exact ⟨by simp, h2, Or.inr (Or.inl rfl), Or.inr (Or.inl rfl)⟩
    · refine ⟨by simp, h2, ?_, h4⟩
      rcases h3 with h3 | h3 | h3
      · exact absurd (h1 ▸ h3) (by decide)
      · exact Or.inr (Or.inl h3)
      · exact Or.inr (Or.inr h3)
    · exact ⟨by simp [h1], h2, h3, h4⟩

lemma raceInv_fold (sched : List Bool) :
    ∀ st : RaceState, RaceInv st → RaceInv (sched.foldl stepRace st) := by
  induction sched with
  | nil => exact fun st h => h
  | cons c rest ih => exact fun st h => ih (stepRace st c) (raceInv_step st c h)

lemma raceInv_run (sched : List Bool) : RaceInv (runRace sched) :=
  raceInv_fold sched raceInit raceInv_init

/-- C1 amended: the race still ends in exactly one terminal status — once
the completion path has run to its end the record is `success` or
`cancelled`, never left `running` — but the losing path does not skip its
finalize: both paths write their terminal status unconditionally and the
last write wins, as `C1_counterexample` exhibits. -/
theorem C1_race_terminal (sched : List Bool)
    (h : (runRace sched).completion = []) :
    (runRace sched).status = .success ∨ (runRace sched).status = .cancelled := by
  obtain ⟨h1, h2, h3, h4⟩ := raceInv_run sched
  rcases h3 with h3 | h3 | h3
  · exact absurd (h ▸ h3) (by decide)
  · exact Or.inl h3
  · exact Or.inr h3

/-- C1 witness: the amended theorem at a schedule running the completion
path to its end before the canceller starts. -/
theorem C1_race_terminal_witness :
    (runRace [true, true]).status = .success
    ∨ (runRace [true, true]).status = .cancelled :=
  C1_race_terminal [true, true] (by decide)

/-! ## Claim C6 — denial classification (corrected)

`canExecuteStatement` matches string prefixes, not leading tokens: any
statement whose text merely begins with the letters of a keyword is treated
as that keyword.  So `SELECTION_SORT ...` is allowed to a VIEWER (prefix
`SELECT`), and the denial for `CREATED_AT_REPORT` names `CREATE` although
its leading token is no recognized keyword.  What does hold: every
statement with no allowed-keyword prefix is denied, the denial names the
first DDL keyword (in source order) that is a prefix, and in particular
names the leading token itself whenever that token is a recognized
keyword. -/

lemma isPrefixOf_append_self (xs ys : List Char) :
    xs.isPrefixOf (xs ++ ys) = true := by
  induction xs with
  | nil => simp [List.isPrefixOf]
  | cons a as ih => simp [List.isPrefixOf, ih]

lemma isPrefixOf_total (l₃ l₁ l₂ : List Char) (h₁ : l₁.isPrefixOf l₃ = true)
    (h₂ : l₂.isPrefixOf l₃ = true) :
    l₁.isPrefixOf l₂ = true ∨ l₂.isPrefixOf l₁ = true := by
  induction l₃ generalizing l₁ l₂ with
  | nil =>
    cases l₁ with
    | nil => exact Or.inl (by simp [List.isPrefixOf])
    | cons a as => exact absurd h₁ (by simp [List.isPrefixOf])
  | cons c t ih =>
    cases l₁ with
    | nil => exact Or.inl (by simp [List.isPrefixOf])
    | cons a as =>
      cases l₂ with
      | nil => exact Or.inr (by simp [List.isPrefixOf])
      | cons b bs =>
        simp only [List.isPrefixOf, Bool.and_eq_true, beq_iff_eq] at h₁ h₂
        obtain ⟨hac, has⟩ := h₁
        obtain ⟨hbc, hbs⟩ := h₂
        subst hac
        subst hbc
        rcases ih as bs has hbs with hd | hd
        · exact Or.inl (by simp [List.isPrefixOf, hd])
        · exact Or.inr (by simp [List.isPrefixOf, hd])

lemma not_isPrefixOf_sep (kw t r : List Char) (h1 : kw.isPrefixOf t = false)
    (h2 : t.isPrefixOf kw = false) : kw.isPrefixOf (t ++ r) = false := by
  cases hk : kw.isPrefixOf (t ++ r) with
  | false => rfl
  | true =>
    rcases isPrefixOf_total (t ++ r) kw t hk (isPrefixOf_append_self t r) with hd | hd
    · rw [h1] at hd
      exact absurd hd Bool.false_ne_true
    · rw [h2] at hd
      exact absurd hd Bool.false_ne_true

lemma dropWhile_head_not (p : Char → Bool) (l : List Char) (c : Char)
    (r : List Char) (h : l.dropWhile p = c :: r) : p c = false := by
  induction l with
  | nil => exact absurd h (by simp [List.dropWhile])
  | cons a t ih =>
    rw [List.dropWhile_cons] at h
    split at h
    · exact ih h
    · rename_i hpa
      injection h with h1 _
      cases hb : p c with
      | false => rfl
      | true => exact absurd (h1.symm ▸ hb) hpa

lemma executeKw_mismatch (r : List Char)
    (hr : ∀ c r', r = c :: r' → c.isWhitespace = true) :
    ("EXECUTE".data).isPrefixOf ("EXEC".data ++ r) = false := by
  cases r with
  | nil => decide
  | cons c r' =>
    have hw : c.isWhitespace = true := hr c r' rfl
    have hne : ('U' == c) = false := by
      cases hUc : ('U' == c) with
      | false => rfl
      | true =>
        have hcU : c = 'U' := (eq_of_beq hUc).symm
        rw [hcU] at hw
        exact absurd hw (by decide)
    show (['E', 'X', 'E', 'C', 'U', 'T', 'E'] : List Char).isPrefixOf
        (['E', 'X', 'E', 'C'] ++ (c :: r')) = false
    simp [List.isPrefixOf, hne]

/-- Whenever the leading token of `n` is a recognized DDL keyword, the DDL
scan of roles.js lines 74-81 finds exactly that keyword. -/
lemma find?_ddl_of_token (n : String) (h : leadingToken n ∈ ddlKeywords) :
    ddlKeywords.find? (fun kw => strStartsWith n kw) = some (leadingToken n) := by
  have hsplit : n.data = n.data.takeWhile nonWs ++ n.data.dropWhile nonWs :=
    (List.takeWhile_append_dropWhile nonWs n.data).symm
  have hr : ∀ c r', n.data.dropWhile nonWs = c :: r' → c.isWhitespace = true := by
    intro c r' hcr
    have hnw := dropWhile_head_not nonWs _ c r' hcr
    simpa [nonWs] using hnw
  simp only [ddlKeywords, List.mem_cons, List.not_mem_nil, or_false] at h
  rcases h with h | h | h | h | h | h | h | h
  · have hdata : n.data.takeWhile nonWs = "CREATE".data := congrArg String.data h
    rw [hdata] at hsplit
    have hpos : strStartsWith n "CREATE" = true := by
      unfold strStartsWith
      rw [hsplit]
      exact isPrefixOf_append_self _ _
    rw [h]
    simp [ddlKeywords, List.find?_cons, hpos]
  · have hdata : n.data.takeWhile nonWs = "ALTER".data := congrArg String.data h
    rw [hdata] at hsplit
    have e1 : strStartsWith n "CREATE" = false := by
      unfold strStartsWith
      rw [hsplit]
      exact not_isPrefixOf_sep _ _ _ (by decide) (by decide)
    have hpos : strStartsWith n "ALTER" = true := by
      unfold strStartsWith
      rw [hsplit]
      exact isPrefixOf_append_self _ _
    rw [h]
    simp [ddlKeywords, List.find?_cons, e1, hpos]
  · have hdata : n.data.takeWhile nonWs = "DROP".data := congrArg String.data h
    rw [hdata] at hsplit
    have e1 : strStartsWith n "CREATE" = false := by
      unfold strStartsWith
      rw [hsplit]
      exact not_isPrefixOf_sep _ _ _ (by decide) (by decide)
    have e2 : strStartsWith n "ALTER" = false := by
      unfold strStartsWith
      rw [hsplit]
      exact not_isPrefixOf_sep _ _ _ (by decide) (by decide)
    have hpos : strStartsWith n "DROP" = true := by
      unfold strStartsWith
      rw [hsplit]
      exact isPrefixOf_append_self _ _
    rw [h]
    simp [ddlKeywords, List.find?_cons, e1, e2, hpos]
  · have hdata : n.data.takeWhile nonWs = "TRUNCATE".data := congrArg String.data h
    rw [hdata] at hsplit
    have e1 : strStartsWith n "CREATE" = false := by
      unfold strStartsWith
      rw [hsplit]
      exact not_isPrefixOf_sep _ _ _ (by decide) (by decide)
    have e2 : strStartsWith n "ALTER" = false := by
      unfold strStartsWith
      rw [hsplit]
      exact not_isPrefixOf_sep _ _ _ (by decide) (by decide)
    have e3 : strStartsWith n "DROP" = false := by
      unfold strStartsWith
      rw [hsplit]
      exact not_isPrefixOf_sep _ _ _ (by decide) (by decide)
    have hpos : strStartsWith n "TRUNCATE" = true := by
      unfold strStartsWith
      rw [hsplit]
      exact isPrefixOf_append_self _ _
    rw [h]
    simp [ddlKeywords, List.find?_cons, e1, e2, e3, hpos]
  · have hdata : n.data.takeWhile nonWs = "GRANT".data := congrArg String.data h
    rw [hdata] at hsplit
    have e1 : strStartsWith n "CREATE" = false := by
      unfold strStartsWith
      rw [hsplit]
      exact not_isPrefixOf_sep _ _ _ (by decide) (by decide)
    have e2 : strStartsWith n "ALTER" = false := by
      unfold strStartsWith
      rw [hsplit]
      exact not_isPrefixOf_sep _ _ _ (by decide) (by decide)
    have e3 : strStartsWith n "DROP" = false := by
      unfold strStartsWith
      rw [hsplit]
      exact not_isPrefixOf_sep _ _ _ (by decide) (by decide)
    have e4 : strStartsWith n "TRUNCATE" = false := by
      unfold strStartsWith
      rw [hsplit]
      exact not_isPrefixOf_sep _ _ _ (by decide) (by decide)
    have hpos : strStartsWith n "GRANT" = true := by
      unfold strStartsWith
      rw [hsplit]
      exact isPrefixOf_append_self _ _
    rw [h]
    simp [ddlKeywords, List.find?_cons, e1, e2, e3, e4, hpos]
  · have hdata : n.data.takeWhile nonWs = "REVOKE".data := congrArg String.data h
    rw [hdata] at hsplit
    have e1 : strStartsWith n "CREATE" = false := by
      unfold strStartsWith
      rw [hsplit]
      exact not_isPrefixOf_sep _ _ _ (by decide) (by decide)
    have e2 : strStartsWith n "ALTER" = false := by
      unfold strStartsWith
      rw [hsplit]
      exact not_isPrefixOf_sep _ _ _ (by decide) (by decide)
    have e3 : strStartsWith n "DROP" = false := by
      unfold strStartsWith
      rw [hsplit]
      exact not_isPrefixOf_sep _ _ _ (by decide) (by decide)
    have e4 : strStartsWith n "TRUNCATE" = false := by
      unfold strStartsWith
      rw [hsplit]
      exact not_isPrefixOf_sep _ _ _ (by decide) (by decide)
    have e5 : strStartsWith n "GRANT" = false := by
      unfold strStartsWith
      rw [hsplit]
      exact not_isPrefixOf_sep _ _ _ (by decide) (by decide)
    have hpos : strStartsWith n "REVOKE" = true := by
      unfold strStartsWith
      rw [hsplit]
      exact isPrefixOf_append_self _ _
    rw [h]
    simp [ddlKeywords, List.find?_cons, e1, e2, e3, e4, e5, hpos]
  · have hdata : n.data.takeWhile nonWs = "EXECUTE".data := congrArg String.data h
    rw [hdata] at hsplit
    have e1 : strStartsWith n "CREATE" = false := by
      unfold strStartsWith
      rw [hsplit]
      exact not_isPrefixOf_sep _ _ _ (by decide) (by decide)
    have e2 : strStartsWith n "ALTER" = false := by
      unfold strStartsWith
      rw [hsplit]
      exact not_isPrefixOf_sep _ _ _ (by decide) (by decide)
    have e3 : strStartsWith n "DROP" = false := by
      unfold strStartsWith
      rw [hsplit]
      exact not_isPrefixOf_sep _ _ _ (by decide) (by decide)
    have e4 : strStartsWith n "TRUNCATE" = false := by
      unfold strStartsWith
      rw [hsplit]
      exact not_isPrefixOf_sep _ _ _ (by decide) (by decide)
    have e5 : strStartsWith n "GRANT" = false := by
      unfold strStartsWith
      rw [hsplit]
      exact not_isPrefixOf_sep _ _ _ (by decide) (by decide)
    have e6 : strStartsWith n "REVOKE" = false := by
      unfold strStartsWith
      rw [hsplit]
      exact not_isPrefixOf_sep _ _ _ (by decide) (by decide)
    have hpos : strStartsWith n "EXECUTE" = true := by
      unfold strStartsWith
      rw [hsplit]
      exact isPrefixOf_append_self _ _
    rw [h]
    simp [ddlKeywords, List.find?_cons, e1, e2, e3, e4, e5, e6, hpos]
  · have hdata : n.data.takeWhile nonWs = "EXEC".data := congrArg String.data h
    rw [hdata] at hsplit
    have hr' : ∀ c r', n.data.dropWhile nonWs = c :: r' → c.isWhitespace = true := hr
    have e1 : strStartsWith n "CREATE" = false := by
      unfold strStartsWith
      rw [hsplit]
      exact not_isPrefixOf_sep _ _ _ (by decide) (by decide)
    have e2 : strStartsWith n "ALTER" = false := by
      unfold strStartsWith
      rw [hsplit]
      exact not_isPrefixOf_sep _ _ _ (by decide) (by decide)
    have e3 : strStartsWith n "DROP" = false := by
      unfold strStartsWith
      rw [hsplit]
      exact not_isPrefixOf_sep _ _ _ (by decide) (by decide)
    have e4 : strStartsWith n "TRUNCATE" = false := by
      unfold strStartsWith
      rw [hsplit]
      exact not_isPrefixOf_sep _ _ _ (by decide) (by decide)
    have e5 : strStartsWith n "GRANT" = false := by
      unfold strStartsWith
      rw [hsplit]
      exact not_isPrefixOf_sep _ _ _ (by decide) (by decide)
    have e6 : strStartsWith n "REVOKE" = false := by
      unfold strStartsWith
      rw [hsplit]
      exact not_isPrefixOf_sep _ _ _ (by decide) (by decide)
    have e7 : strStartsWith n "EXECUTE" = false := by
      unfold strStartsWith
      rw [hsplit]
      exact executeKw_mismatch _ (fun c r' hcr => hr' c r' hcr)
    have hpos : strStartsWith n "EXEC" = true := by
      unfold strStartsWith
      rw [hsplit]
      exact isPrefixOf_append_self _ _
    rw [h]
    simp [ddlKeywords, List.find?_cons, e1, e2, e3, e4, e5, e6, e7, hpos]

/-- C6 counterexample: for the VIEWER role, `SELECTION_SORT OF X` — whose
leading token is not an allowed statement kind — is nevertheless allowed
(prefix `SELECT`), and the denial for `CREATED_AT_REPORT` — whose leading
token is no recognized keyword, so the claim requires the generic reason —
names the keyword `CREATE`. -/
theorem C6_counterexample :
    (leadingToken (normalizeSql "SELECTION_SORT OF X")
        ∉ (getRolePermissions "VIEWER").allowedStatements
      ∧ canExecuteStatement "VIEWER" "SELECTION_SORT OF X" = .allowStmt "SELECT")
    ∧ (leadingToken (normalizeSql "CREATED_AT_REPORT") ∉ ddlKeywords
      ∧ canExecuteStatement "VIEWER" "CREATED_AT_REPORT"
          = .deny (ddlReason "VIEWER" "CREATE")
      ∧ ddlReason "VIEWER" "CREATE" ≠ genericReason "VIEWER") := by
  decide

/-- C6 amended: whenever no keyword of the role's allowed set is a prefix
of the trimmed, case-normalized statement (and the role is not granted
all), `canExecuteStatement` denies; the denial names the first recognized
DDL keyword (in the order CREATE, ALTER, DROP, TRUNCATE, GRANT, REVOKE,
EXECUTE, EXEC) that is a prefix of the normalized statement — in
particular, exactly the leading token whenever that token is a recognized
keyword — and is generic exactly when no recognized keyword is a prefix. -/
theorem C6_authorize_deny (role sqlText : String)
    (hstar : (getRolePermissions role).allowedStatements.contains "*" = false)
    (hkind : ∀ s ∈ (getRolePermissions role).allowedStatements,
        strStartsWith (normalizeSql sqlText) s = false) :
    (∃ reason, canExecuteStatement role sqlText = .deny reason)
    ∧ (∀ kw, ddlKeywords.find? (fun k => strStartsWith (normalizeSql sqlText) k)
          = some kw →
        canExecuteStatement role sqlText = .deny (ddlReason role kw))
    ∧ (leadingToken (normalizeSql sqlText) ∈ ddlKeywords →
        canExecuteStatement role sqlText
          = .deny (ddlReason role (leadingToken (normalizeSql sqlText))))
    ∧ (ddlKeywords.find? (fun k => strStartsWith (normalizeSql sqlText) k) = none →
        canExecuteStatement role sqlText = .deny (genericReason role)) := by
  have hfind : (getRolePermissions role).allowedStatements.find?
      (fun s => strStartsWith (normalizeSql sqlText) s) = none :=
    List.find?_eq_none.mpr (fun s hs => by simp [hkind s hs])
  have hform : ∀ res,
      ddlKeywords.find? (fun k => strStartsWith (normalizeSql sqlText) k) = res →
      canExecuteStatement role sqlText =
        (match res with
         | some kw => .deny (ddlReason role kw)
         | none => .deny (genericReason role)) := by
    intro res hres
    unfold canExecuteStatement
    simp only [hstar, Bool.false_eq_true, if_false, hfind, hres]
  refine ⟨?_, ?_, ?_, ?_⟩
  · cases hd : ddlKeywords.find? (fun k => strStartsWith (normalizeSql sqlText) k) with
    | none => exact ⟨genericReason role, hform none hd⟩
    | some kw => exact ⟨ddlReason role kw, hform (some kw) hd⟩
  · exact fun kw hkw => hform (some kw) hkw
  · intro htok
    exact hform (some (leadingToken (normalizeSql sqlText)))
      (find?_ddl_of_token (normalizeSql sqlText) htok)
  · exact fun hnone => hform none hnone

/-- C6 witness: the amended theorem for a VIEWER submitting
`DROP TABLE T`. -/
theorem C6_authorize_deny_witness :
    (∃ reason, canExecuteStatement "VIEWER" "DROP TABLE T" = .deny reason)
    ∧ (∀ kw, ddlKeywords.find?
          (fun k => strStartsWith (normalizeSql "DROP TABLE T") k) = some kw →
        canExecuteStatement "VIEWER" "DROP TABLE T" = .deny (ddlReason "VIEWER" kw))
    ∧ (leadingToken (normalizeSql "DROP TABLE T") ∈ ddlKeywords →
        canExecuteStatement "VIEWER" "DROP TABLE T"
          = .deny (ddlReason "VIEWER" (leadingToken (normalizeSql "DROP TABLE T"))))
    ∧ (ddlKeywords.find?
          (fun k => strStartsWith (normalizeSql "DROP TABLE T") k) = none →
        canExecuteStatement "VIEWER" "DROP TABLE T"
          = .deny (genericReason "VIEWER")) :=
  C6_authorize_deny "VIEWER" "DROP TABLE T" (by decide) (by decide)

/-! ## The executeQuery paths, as equations -/

/-- The row `QueryHistoryModel.create` inserts for the execution the broker
mints in state `st`. -/
def createdRow (st : BrokerState) (userId connectionId sqlText : String)
    (now : Nat) : HistRow :=
  { id := mkQid st.nextQid, userId := userId, connectionId := connectionId,
    sqlText := sqlText, createdAt := now, status := .s "running",
    rowCount := .null, executionTimeMs := .null, errorMessage := .null,
    cancelledAt := .null }

/-- The broker state after the shared prefix of the allowed path — history
row created, pool acquired, tracker entry registered — and before the
driver outcome is dispatched. -/
def midState (env : BrokerEnv) (st : BrokerState)
    (userId connectionId sqlText : String) (now : Nat) : BrokerState :=
  { hist := st.hist ++ [createdRow st userId connectionId sqlText now],
    running := insertA (mkQid st.nextQid)
      { userId := userId, connectionId := connectionId } st.running,
    pools := (getOrCreatePool env st.pools connectionId).snd,
    nextQid := st.nextQid + 1,
    signalled := st.signalled }

lemma executeQuery_deny_eq (env : BrokerEnv) (st : BrokerState)
    (userRole userId connectionId sqlText : String) (outcome : QueryOutcome)
    (now elapsedMs : Nat) (reason : String)
    (hdeny : canExecuteStatement userRole sqlText = .deny reason) :
    executeQuery env st userRole userId connectionId sqlText outcome now elapsedMs
      = if strContainsSub reason "cancel" = true
        then (.error "Query cancelled by user", st)
        else (.error reason, st) := by
  unfold executeQuery
  rw [hdeny]

lemma executeQuery_ok_eq (env : BrokerEnv) (st : BrokerState)
    (userRole userId connectionId sqlText : String)
    (recordset : Option (List Nat)) (now elapsedMs : Nat)
    (hallow : (canExecuteStatement userRole sqlText).allowedFlag = true) :
    executeQuery env st userRole userId connectionId sqlText (.ok recordset) now elapsedMs
      = (.ok { queryId := mkQid st.nextQid,
               data := (recordset.getD []).take (getRolePermissions userRole).maxRows,
               totalRows := (recordset.getD []).length,
               returnedRows :=
                 ((recordset.getD []).take (getRolePermissions userRole).maxRows).length,
               truncated :=
                 decide ((recordset.getD []).length > (getRolePermissions userRole).maxRows),
               maxRows := (getRolePermissions userRole).maxRows,
               executionTimeMs := elapsedMs },
         { midState env st userId connectionId sqlText now with
           hist := (QueryHistoryModel.update
             (midState env st userId connectionId sqlText now).hist (mkQid st.nextQid)
             [("status", .s "success"), ("rowCount", .n (recordset.getD []).length),
              ("executionTimeMs", .n elapsedMs)]).snd,
           running := eraseA (mkQid st.nextQid)
             (midState env st userId connectionId sqlText now).running }) := by
  cases hpc : canExecuteStatement userRole sqlText with
  | deny r =>
    rw [hpc] at hallow
    exact absurd hallow (by simp [PermCheck.allowedFlag])
  | allowAll =>
    unfold executeQuery
    rw [hpc]
    rfl
  | allowStmt s =>
    unfold executeQuery
    rw [hpc]
    rfl

lemma executeQuery_err_eq (env : BrokerEnv) (st : BrokerState)
    (userRole userId connectionId sqlText msg : String) (now elapsedMs : Nat)
    (hallow : (canExecuteStatement userRole sqlText).allowedFlag = true) :
    executeQuery env st userRole userId connectionId sqlText (.err msg) now elapsedMs
      = if strContainsSub msg "cancel" = true then
          (.error "Query cancelled by user",
           { midState env st userId connectionId sqlText now with
             hist := (QueryHistoryModel.update
               (midState env st userId connectionId sqlText now).hist (mkQid st.nextQid)
               [("status", .s "cancelled"), ("executionTimeMs", .n elapsedMs),
                ("errorMessage", .s "Query cancelled by user")]).snd,
             running := eraseA (mkQid st.nextQid)
               (midState env st userId connectionId sqlText now).running })
        else
          (.error msg,
           { midState env st userId connectionId sqlText now with
             hist := (QueryHistoryModel.update
               (midState env st userId connectionId sqlText now).hist (mkQid st.nextQid)
               [("status", .s "error"), ("executionTimeMs", .n elapsedMs),
                ("errorMessage", .s msg)]).snd,
             running := eraseA (mkQid st.nextQid)
               (midState env st userId connectionId sqlText now).running }) := by
  cases hpc : canExecuteStatement userRole sqlText with
  | deny r =>
    rw [hpc] at hallow
    exact absurd hallow (by simp [PermCheck.allowedFlag])
  | allowAll =>
    unfold executeQuery
    rw [hpc]
    rfl
  | allowStmt s =>
    unfold executeQuery
    rw [hpc]
    rfl

/-- After appending a fresh row and updating it through the ledger, reading
the row back yields the updated row. -/
lemma findById_update_append (hist : List HistRow) (row : HistRow)
    (upds : List (String × JVal))
    (hfresh : QueryHistoryModel.findById hist row.id = none)
    (hne : updSets upds ≠ []) :
    QueryHistoryModel.findById
        ((QueryHistoryModel.update (hist ++ [row]) row.id upds).snd) row.id
      = some (QueryHistoryModel.applySets row (updSets upds)) := by
  rw [update_eq]
  rw [if_neg hne]
  induction hist with
  | nil =>
    simp [QueryHistoryModel.findById, QueryHistoryModel.id_applySets]
  | cons r t ih =>
    by_cases hr : r.id = row.id
    · have hsome : QueryHistoryModel.findById (r :: t) row.id = some r := by
        unfold QueryHistoryModel.findById
        exact List.find?_cons_of_pos _ (by simp [hr])
      rw [hsome] at hfresh
      exact absurd hfresh (by simp)
    · have hft : QueryHistoryModel.findById t row.id = none := by
        have hskip : QueryHistoryModel.findById (r :: t) row.id
            = QueryHistoryModel.findById t row.id := by
          unfold QueryHistoryModel.findById
          exact List.find?_cons_of_neg _ (by simp [hr])
        rw [← hskip]
        exact hfresh
      simp only [List.cons_append, List.map_cons]
      rw [if_neg hr]
      have hstep : QueryHistoryModel.findById
          (r :: (t ++ [row]).map (fun q =>
            if q.id = row.id then QueryHistoryModel.applySets q (updSets upds) else q))
          row.id
          = QueryHistoryModel.findById
            ((t ++ [row]).map (fun q =>
              if q.id = row.id then QueryHistoryModel.applySets q (updSets upds) else q))
            row.id := by
        unfold QueryHistoryModel.findById
        exact List.find?_cons_of_neg _ (by simp [hr])
      rw [hstep]
      exact ih hft

lemma take_min (l : List Nat) (n : Nat) :
    l.take n = l.take (min l.length n) := by
  rcases Nat.le_total l.length n with h | h
  · rw [Nat.min_eq_left h, List.take_length, List.take_of_length_le h]
  · rw [Nat.min_eq_right h]

/-- Every update list the broker issues begins with a `status` key, which
is allow-listed, so the generated `SET` list is never empty. -/
lemma updSets_status_ne (v : JVal) (rest : List (String × JVal)) :
    updSets (("status", v) :: rest) ≠ [] := by
  unfold updSets
  rw [List.filter_cons,
    if_pos (show QueryHistoryModel.allowedFields.contains ("status", v).fst = true from rfl)]
  exact List.cons_ne_nil _ _

/-! ## Claim C3 — successful execution shaping (confirmed) -/

/-- C3: a successful execution returns
`returnedRows = min(totalRows, maxRows)`, `truncated = (totalRows >
maxRows)`, the first `returnedRows` rows of the driver's recordset as
`data`, and finalizes the history record as `success` carrying the total,
uncapped row count. -/
theorem C3_success_shaping (env : BrokerEnv) (st : BrokerState)
    (userRole userId connectionId sqlText : String)
    (recordset : Option (List Nat)) (now elapsedMs : Nat)
    (hallow : (canExecuteStatement userRole sqlText).allowedFlag = true)
    (hfresh : QueryHistoryModel.findById st.hist (mkQid st.nextQid) = none) :
    (executeQuery env st userRole userId connectionId sqlText
        (.ok recordset) now elapsedMs).fst
      = .ok { queryId := mkQid st.nextQid,
              data := (recordset.getD []).take
                (min (recordset.getD []).length (getRolePermissions userRole).maxRows),
              totalRows := (recordset.getD []).length,
              returnedRows :=
                min (recordset.getD []).length (getRolePermissions userRole).maxRows,
              truncated := decide
                ((recordset.getD []).length > (getRolePermissions userRole).maxRows),
              maxRows := (getRolePermissions userRole).maxRows,
              executionTimeMs := elapsedMs }
    ∧ QueryHistoryModel.findById
        (executeQuery env st userRole userId connectionId sqlText
          (.ok recordset) now elapsedMs).snd.hist (mkQid st.nextQid)
      = some { id := mkQid st.nextQid, userId := userId,
               connectionId := connectionId, sqlText := sqlText,
               createdAt := now, status := .s "success",
               rowCount := .n (recordset.getD []).length,
               executionTimeMs := .n elapsedMs, errorMessage := .null,
               cancelledAt := .null } := by
  have heq := executeQuery_ok_eq env st userRole userId connectionId sqlText
    recordset now elapsedMs hallow
  constructor
  · rw [heq]
    have hlen : ((recordset.getD []).take (getRolePermissions userRole).maxRows).length
        = min (recordset.getD []).length (getRolePermissions userRole).maxRows := by
      rw [List.length_take, Nat.min_comm]
    have hdata : (recordset.getD []).take (getRolePermissions userRole).maxRows
        = (recordset.getD []).take
            (min (recordset.getD []).length (getRolePermissions userRole).maxRows) :=
      take_min _ _
    rw [hlen, hdata]
  · rw [heq]
    exact findById_update_append st.hist
      (createdRow st userId connectionId sqlText now)
      [("status", .s "success"), ("rowCount", .n (recordset.getD []).length),
       ("executionTimeMs", .n elapsedMs)]
      hfresh (updSets_status_ne _ _)

/-- C3 witness: a VIEWER's `SELECT 1` returning three rows against the
1000-row cap. -/
theorem C3_success_shaping_witness :
    (executeQuery envC2 BrokerState.empty "VIEWER" "u1" "conn-1" "SELECT 1"
        (.ok (some [3, 1, 4])) 5 7).fst
      = .ok { queryId := "q0", data := [3, 1, 4], totalRows := 3,
              returnedRows := 3, truncated := false, maxRows := 1000,
              executionTimeMs := 7 }
    ∧ QueryHistoryModel.findById
        (executeQuery envC2 BrokerState.empty "VIEWER" "u1" "conn-1" "SELECT 1"
          (.ok (some [3, 1, 4])) 5 7).snd.hist "q0"
      = some { id := "q0", userId := "u1", connectionId := "conn-1",
               sqlText := "SELECT 1", createdAt := 5, status := .s "success",
               rowCount := .n 3, executionTimeMs := .n 7,
               errorMessage := .null, cancelledAt := .null } :=
  C3_success_shaping envC2 BrokerState.empty "VIEWER" "u1" "conn-1" "SELECT 1"
    (some [3, 1, 4]) 5 7 (by decide) (by decide)

/-! ## Claim C10 — executions without a recordset (confirmed) -/

/-- C10: when the driver result carries no recordset, the execution is
treated as an empty result — `data = []`, `totalRows = 0`,
`returnedRows = 0`, `truncated = false` — and the history record is
finalized `success` with row count 0, for every role policy. -/
theorem C10_no_recordset (env : BrokerEnv) (st : BrokerState)
    (userRole userId connectionId sqlText : String) (now elapsedMs : Nat)
    (hallow : (canExecuteStatement userRole sqlText).allowedFlag = true)
    (hfresh : QueryHistoryModel.findById st.hist (mkQid st.nextQid) = none) :
    (executeQuery env st userRole userId connectionId sqlText
        (.ok none) now elapsedMs).fst
      = .ok { queryId := mkQid st.nextQid, data := [], totalRows := 0,
              returnedRows := 0, truncated := false,
              maxRows := (getRolePermissions userRole).maxRows,
              executionTimeMs := elapsedMs }
    ∧ QueryHistoryModel.findById
        (executeQuery env st userRole userId connectionId sqlText
          (.ok none) now elapsedMs).snd.hist (mkQid st.nextQid)
      = some { id := mkQid st.nextQid, userId := userId,
               connectionId := connectionId, sqlText := sqlText,
               createdAt := now, status := .s "success", rowCount := .n 0,
               executionTimeMs := .n elapsedMs, errorMessage := .null,
               cancelledAt := .null } := by
  have heq := executeQuery_ok_eq env st userRole userId connectionId sqlText
    none now elapsedMs hallow
  constructor
  · rw [heq]
    simp [List.take_nil]
  · rw [heq]
    exact findById_update_append st.hist
      (createdRow st userId connectionId sqlText now)
      [("status", .s "success"),
       ("rowCount", .n ((none : Option (List Nat)).getD []).length),
       ("executionTimeMs", .n elapsedMs)]
      hfresh (updSets_status_ne _ _)

/-- C10 witness: a DEVELOPER's data-modification statement with no
recordset. -/
theorem C10_no_recordset_witness :
    (executeQuery envC2 BrokerState.empty "DEVELOPER" "u1" "conn-1"
        "UPDATE T SET x = 1" (.ok none) 5 7).fst
      = .ok { queryId := "q0", data := [], totalRows := 0, returnedRows := 0,
              truncated := false, maxRows := 10000, executionTimeMs := 7 }
    ∧ QueryHistoryModel.findById
        (executeQuery envC2 BrokerState.empty "DEVELOPER" "u1" "conn-1"
          "UPDATE T SET x = 1" (.ok none) 5 7).snd.hist "q0"
      = some { id := "q0", userId := "u1", connectionId := "conn-1",
               sqlText := "UPDATE T SET x = 1", createdAt := 5,
               status := .s "success", rowCount := .n 0,
               executionTimeMs := .n 7, errorMessage := .null,
               cancelledAt := .null } :=
  C10_no_recordset envC2 BrokerState.empty "DEVELOPER" "u1" "conn-1"
    "UPDATE T SET x = 1" 5 7 (by decide) (by decide)

/-! ## Claim C8 — cancellation classified by error-message substring
(confirmed) -/

/-- C8: a failed execution is classified as a cancellation exactly when the
thrown message contains the substring `cancel`: such failures finalize the
record as `cancelled` with text `Query cancelled by user` (whether or not a
cancel was requested), all others finalize it as `error` carrying the
driver message. -/
theorem C8_cancel_classification (env : BrokerEnv) (st : BrokerState)
    (userRole userId connectionId sqlText msg : String) (now elapsedMs : Nat)
    (hallow : (canExecuteStatement userRole sqlText).allowedFlag = true)
    (hfresh : QueryHistoryModel.findById st.hist (mkQid st.nextQid) = none) :
    (strContainsSub msg "cancel" = true →
      (executeQuery env st userRole userId connectionId sqlText
          (.err msg) now elapsedMs).fst = .error "Query cancelled by user"
      ∧ QueryHistoryModel.findById
          (executeQuery env st userRole userId connectionId sqlText
            (.err msg) now elapsedMs).snd.hist (mkQid st.nextQid)
        = some { id := mkQid st.nextQid, userId := userId,
                 connectionId := connectionId, sqlText := sqlText,
                 createdAt := now, status := .s "cancelled",
                 rowCount := .null, executionTimeMs := .n elapsedMs,
                 errorMessage := .s "Query cancelled by user",
                 cancelledAt := .null })
    ∧ (strContainsSub msg "cancel" = false →
      (executeQuery env st userRole userId connectionId sqlText
          (.err msg) now elapsedMs).fst = .error msg
      ∧ QueryHistoryModel.findById
          (executeQuery env st userRole userId connectionId sqlText
            (.err msg) now elapsedMs).snd.hist (mkQid st.nextQid)
        = some { id := mkQid st.nextQid, userId := userId,
                 connectionId := connectionId, sqlText := sqlText,
                 createdAt := now, status := .s "error", rowCount := .null,
                 executionTimeMs := .n elapsedMs, errorMessage := .s msg,
                 cancelledAt := .null })
    ∧ ((QueryHistoryModel.findById
          (executeQuery env st userRole userId connectionId sqlText
            (.err msg) now elapsedMs).snd.hist (mkQid st.nextQid)).map
            (fun r => r.status) = some (.s "cancelled")
        ↔ strContainsSub msg "cancel" = true) := by
  have heq := executeQuery_err_eq env st userRole userId connectionId sqlText
    msg now elapsedMs hallow
  have hcanc : strContainsSub msg "cancel" = true →
      QueryHistoryModel.findById
          (executeQuery env st userRole userId connectionId sqlText
            (.err msg) now elapsedMs).snd.hist (mkQid st.nextQid)
        = some { id := mkQid st.nextQid, userId := userId,
                 connectionId := connectionId, sqlText := sqlText,
                 createdAt := now, status := .s "cancelled",
                 rowCount := .null, executionTimeMs := .n elapsedMs,
                 errorMessage := .s "Query cancelled by user",
                 cancelledAt := .null } := by
    intro h
    rw [heq, if_pos h]
    exact findById_update_append st.hist
      (createdRow st userId connectionId sqlText now)
      [("status", .s "cancelled"), ("executionTimeMs", .n elapsedMs),
       ("errorMessage", .s "Query cancelled by user")]
      hfresh (updSets_status_ne _ _)
  have herr : strContainsSub msg "cancel" = false →
      QueryHistoryModel.findById
          (executeQuery env st userRole userId connectionId sqlText
            (.err msg) now elapsedMs).snd.hist (mkQid st.nextQid)
        = some { id := mkQid st.nextQid, userId := userId,
                 connectionId := connectionId, sqlText := sqlText,
                 createdAt := now, status := .s "error", rowCount := .null,
                 executionTimeMs := .n elapsedMs, errorMessage := .s msg,
                 cancelledAt := .null } := by
    intro h
    rw [heq, if_neg (by simp [h])]
    exact findById_update_append st.hist
      (createdRow st userId connectionId sqlText now)
      [("status", .s "error"), ("executionTimeMs", .n elapsedMs),
       ("errorMessage", .s msg)]
      hfresh (updSets_status_ne _ _)
  refine ⟨fun h => ⟨by rw [heq, if_pos h], hcanc h⟩,
          fun h => ⟨by rw [heq, if_neg (by simp [h])], herr h⟩, ?_⟩
  cases hc : strContainsSub msg "cancel" with
  | true =>
    rw [hcanc hc]
    simp
  | false =>
    rw [herr hc]
    simp

/-- C8 witness: for a VIEWER `SELECT`, a driver rejection whose message
mentions `cancel` is finalized `cancelled`, while one that does not is
finalized `error`. -/
theorem C8_cancel_classification_witness :
    (strContainsSub "Request was cancelled by timeout" "cancel" = true →
      (executeQuery envC2 BrokerState.empty "VIEWER" "u1" "conn-1" "SELECT 1"
          (.err "Request was cancelled by timeout") 5 7).fst
        = .error "Query cancelled by user"
      ∧ QueryHistoryModel.findById
          (executeQuery envC2 BrokerState.empty "VIEWER" "u1" "conn-1" "SELECT 1"
            (.err "Request was cancelled by timeout") 5 7).snd.hist "q0"
        = some { id := "q0", userId := "u1", connectionId := "conn-1",
                 sqlText := "SELECT 1", createdAt := 5,
                 status := .s "cancelled", rowCount := .null,
                 executionTimeMs := .n 7,
                 errorMessage := .s "Query cancelled by user",
                 cancelledAt := .null })
    ∧ (strContainsSub "Request was cancelled by timeout" "cancel" = false →
      (executeQuery envC2 BrokerState.empty "VIEWER" "u1" "conn-1" "SELECT 1"
          (.err "Request was cancelled by timeout") 5 7).fst
        = .error "Request was cancelled by timeout"
      ∧ QueryHistoryModel.findById
          (executeQuery envC2 BrokerState.empty "VIEWER" "u1" "conn-1" "SELECT 1"
            (.err "Request was cancelled by timeout") 5 7).snd.hist "q0"
        = some { id := "q0", userId := "u1", connectionId := "conn-1",
                 sqlText := "SELECT 1", createdAt := 5, status := .s "error",
                 rowCount := .null, executionTimeMs := .n 7,
                 errorMessage := .s "Request was cancelled by timeout",
                 cancelledAt := .null })
    ∧ ((QueryHistoryModel.findById
          (executeQuery envC2 BrokerState.empty "VIEWER" "u1" "conn-1" "SELECT 1"
            (.err "Request was cancelled by timeout") 5 7).snd.hist "q0").map
            (fun r => r.status) = some (.s "cancelled")
        ↔ strContainsSub "Request was cancelled by timeout" "cancel" = true) :=
  C8_cancel_classification envC2 BrokerState.empty "VIEWER" "u1" "conn-1"
    "SELECT 1" "Request was cancelled by timeout" 5 7 (by decide) (by decide)

/-! ## Claim C4 — denied submissions change nothing (confirmed) -/

lemma deny_reason_shape (role sqlText reason : String)
    (hdeny : canExecuteStatement role sqlText = .deny reason) :
    (∃ kw ∈ ddlKeywords, reason = ddlReason role kw)
    ∨ reason = genericReason role := by
  unfold canExecuteStatement at hdeny
  by_cases hstar : (getRolePermissions role).allowedStatements.contains "*" = true
  · rw [if_pos hstar] at hdeny
    exact absurd hdeny (by simp)
  · rw [if_neg hstar] at hdeny
    have hdeny' :
        (match (getRolePermissions role).allowedStatements.find?
            (fun st => strStartsWith (normalizeSql sqlText) st) with
         | some st => PermCheck.allowStmt st
         | none =>
           match ddlKeywords.find?
               (fun kw => strStartsWith (normalizeSql sqlText) kw) with
           | some kw => PermCheck.deny (ddlReason role kw)
           | none => PermCheck.deny (genericReason role))
          = PermCheck.deny reason := hdeny
    cases hf : (getRolePermissions role).allowedStatements.find?
        (fun st => strStartsWith (normalizeSql sqlText) st) with
    | some s =>
      rw [hf] at hdeny'
      exact absurd hdeny' (by simp)
    | none =>
      rw [hf] at hdeny'
      cases hk : ddlKeywords.find?
          (fun kw => strStartsWith (normalizeSql sqlText) kw) with
      | some kw =>
        rw [hk] at hdeny'
        refine Or.inl ⟨kw, List.mem_of_find?_eq_some hk, ?_⟩
        injection hdeny' with h
        exact h.symm
      | none =>
        rw [hk] at hdeny'
        injection hdeny' with h
        exact Or.inr h.symm

/-- No denial text produced for a valid role mentions the substring
`cancel`, so the catch block of lines 82-96 never reclassifies a denial as
a user cancellation. -/
lemma deny_reason_no_cancel (role sqlText reason : String)
    (hrole : role ∈ ["VIEWER", "ANALYST", "DEVELOPER", "ADMIN"])
    (hdeny : canExecuteStatement role sqlText = .deny reason) :
    strContainsSub reason "cancel" = false := by
  simp only [List.mem_cons, List.not_mem_nil, or_false] at hrole
  rcases deny_reason_shape role sqlText reason hdeny with ⟨kw, hkw, rfl⟩ | rfl
  · simp only [ddlKeywords, List.mem_cons, List.not_mem_nil, or_false] at hkw
    rcases hrole with rfl | rfl | rfl | rfl <;>
      rcases hkw with rfl | rfl | rfl | rfl | rfl | rfl | rfl | rfl <;> decide
  · rcases hrole with rfl | rfl | rfl | rfl <;> decide

/-- C4: a submission denied by the caller's role policy returns the
policy-violation reason synchronously and leaves the broker state — history
table, tracker, pool registry, id counter — entirely unchanged. -/
theorem C4_denied_submission (env : BrokerEnv) (st : BrokerState)
    (userRole userId connectionId sqlText : String) (outcome : QueryOutcome)
    (now elapsedMs : Nat) (reason : String)
    (hrole : userRole ∈ ["VIEWER", "ANALYST", "DEVELOPER", "ADMIN"])
    (hdeny : canExecuteStatement userRole sqlText = .deny reason) :
    executeQuery env st userRole userId connectionId sqlText outcome now elapsedMs
      = (.error reason, st) := by
  rw [executeQuery_deny_eq env st userRole userId connectionId sqlText outcome
    now elapsedMs reason hdeny]
  rw [if_neg (by simp [deny_reason_no_cancel userRole sqlText reason hrole hdeny])]

/-- C4 witness: a VIEWER submitting `DROP TABLE T`, with the driver poised
to return a row that is never requested. -/
theorem C4_denied_submission_witness :
    executeQuery envC2 BrokerState.empty "VIEWER" "u1" "conn-1" "DROP TABLE T"
        (.ok (some [1])) 0 0
      = (.error (ddlReason "VIEWER" "DROP"), BrokerState.empty) :=
  C4_denied_submission envC2 BrokerState.empty "VIEWER" "u1" "conn-1"
    "DROP TABLE T" (.ok (some [1])) 0 0 (ddlReason "VIEWER" "DROP")
    (by decide) (by decide)

end SqlBrowser
